import Mathlib

/-!
A verification development for the `storage` package.

The package exposes one interface (`MakeDir`, `Write`, `Read`, `ListDir`,
`Delete`, `Exists`) over two backends: `LocalStorage` (files under a base
directory) and `S3Storage` (objects in a bucket, reached through the
`S3Client` interface).

The embedding is shallow.  Go functions become Lean functions; a Go result
`(value, error)` becomes a pair of options (`none` is Go's `nil`); the
operating system and the object-store client, which the package only calls,
are modelled as explicit state that every operation takes and returns.
-/

namespace GoStorage

/-! ## Go values shared by all files -/

/-- The `syscall.Errno` values the file-system model can produce. -/
inductive Errno where
  | ENOENT
  | ENOTDIR
  | EISDIR
  | EACCES
  | ENOTEMPTY
  | EBUSY
  | EINVAL
  | ENOSPC
  deriving DecidableEq, Repr

/-- The Go type `error`, for the values this package creates or passes on. -/
inductive GoError where
  /-- The value of `fmt.Errorf(msg)`. -/
  | errorf (msg : String)
  /-- The value `&fs.PathError{Op, Path, Err}` returned by package `os`. -/
  | pathError (Op : String) (Path : String) (Err : Errno)
  /-- An error value made by the AWS SDK (client construction, transport,
  authorization, not found, ...), identified by its text. -/
  | sdk (text : String)
  deriving DecidableEq, Repr

/-- How a Go call ends: it returns, it panics (nil dereference), or the
process is ended by `log.Fatal`. -/
inductive Run (α : Type) where
  | returns (a : α)
  | panics
  | exits
  deriving Repr

/-- The function `strings.HasSuffix`:
`len(s) >= len(suffix) && s[len(s)-len(suffix):] == suffix`. -/
def HasSuffix (s : String) (suffix : String) : Bool :=
  decide (s.toList.length ≥ suffix.toList.length) &&
    decide (s.toList.drop (s.toList.length - suffix.toList.length) = suffix.toList)

/-! ## s3.go: the client interface -/

/-- The fields of `s3.PutObjectInput` that the package sets. -/
structure PutObjectInput where
  Bucket : Option String
  Key : Option String
  /-- The bytes the `io.Reader` yields (`strings.NewReader(content)`). -/
  Body : Option String
  deriving DecidableEq, Repr

/-- The fields of `s3.GetObjectInput` that the package sets. -/
structure GetObjectInput where
  Bucket : Option String
  Key : Option String
  deriving DecidableEq, Repr

/-- The fields of `s3.ListObjectsV2Input` that the package sets. -/
structure ListObjectsV2Input where
  Bucket : Option String
  Prefix : Option String
  Delimiter : Option String
  deriving DecidableEq, Repr

/-- The fields of `s3.DeleteObjectInput` that the package sets. -/
structure DeleteObjectInput where
  Bucket : Option String
  Key : Option String
  deriving DecidableEq, Repr

/-- The fields of `s3.HeadObjectInput` that the package sets. -/
structure HeadObjectInput where
  Bucket : Option String
  Key : Option String
  deriving DecidableEq, Repr

/-- The fields of `types.Object` that the package reads; both are pointers. -/
structure Object where
  Key : Option String
  Size : Option Int
  deriving DecidableEq, Repr

/-- The field of `s3.ListObjectsV2Output` that the package reads. -/
structure ListObjectsV2Output where
  Contents : List Object
  deriving DecidableEq, Repr

/-- The field of `s3.GetObjectOutput` that the package reads: the bytes of the
body stream, or a nil body. -/
structure GetObjectOutput where
  Body : Option String
  deriving DecidableEq, Repr

/-- A request received by the client, as recorded in the call log. -/
inductive S3Call where
  | PutObject (params : PutObjectInput)
  | GetObject (params : GetObjectInput)
  | ListObjectsV2 (params : ListObjectsV2Input)
  | DeleteObject (params : DeleteObjectInput)
  | HeadObject (params : HeadObjectInput)
  deriving DecidableEq, Repr

/-- The interface `S3Client` of s3.go.  An implementation has a state of type
`σ` (the bucket contents, a mock, a network) and each method maps the request
and the state to the Go result pair `(output, err)` and the next state.  The
outputs of `PutObject`, `DeleteObject` and `HeadObject` are never read by the
package, so only their being nil or not is kept. -/
structure S3Client (σ : Type) where
  PutObject : PutObjectInput → σ → (Option Unit × Option GoError) × σ
  GetObject : GetObjectInput → σ → (Option GetObjectOutput × Option GoError) × σ
  ListObjectsV2 : ListObjectsV2Input → σ →
    (Option ListObjectsV2Output × Option GoError) × σ
  DeleteObject : DeleteObjectInput → σ → (Option Unit × Option GoError) × σ
  HeadObject : HeadObjectInput → σ → (Option Unit × Option GoError) × σ

/-- What an object-store operation runs against: the client state and the log
of the requests issued so far, oldest first. -/
structure S3World (σ : Type) where
  state : σ
  calls : List S3Call

/-! ## storage.go -/

/-- The struct `Storage` of storage.go (the field `Type` is spelled `Type_`). -/
structure Storage where
  Type_ : String
  Path : String
  deriving DecidableEq, Repr

/-- The struct `LocalStorage` of local.go: it embeds `Storage`. -/
structure LocalStorage extends Storage where
  deriving DecidableEq, Repr

/-- The struct `S3Storage` of s3.go. -/
structure S3Storage (σ : Type) extends Storage where
  client : S3Client σ
  bucket : String

/-- The function `newLocalStorage` of local.go. -/
def newLocalStorage (basePath : String) : LocalStorage :=
  { Type_ := "local", Path := basePath }

/-- The dynamic type behind a non-nil `StorageInterface` value: one of the two
adapters of the package. -/
inductive StorageInterface (σ : Type) where
  | localStorage (l : LocalStorage)
  | s3Storage (s : S3Storage σ)

/-- The function `CreateStorage` of storage.go: a `switch` on the tag with the
single case `"local"` and a `default` that returns `nil` and an error. -/
def CreateStorage {σ : Type} (storageType : String) (path : String) :
    Option (StorageInterface σ) × Option GoError :=
  match storageType with
  | "local" => (some (.localStorage (newLocalStorage path)), none)
  | _ => (none, some (.errorf "Wrong storage type passed"))

/-! ## s3.go: construction -/

/-- The surroundings `newS3Storage` reads: the result of `godotenv.Load()`,
the process environment, and the SDK functions `config.LoadDefaultConfig`
(given the region) and `s3.NewFromConfig`, over a configuration type `κ`. -/
structure Ambient (σ κ : Type) where
  dotenvLoad : Option GoError
  Getenv : String → String
  LoadDefaultConfig : String → κ × Option GoError
  NewFromConfig : κ → S3Client σ

/-- The function `newS3Storage` of s3.go. -/
def newS3Storage {σ κ : Type} (env : Ambient σ κ) (bucket : String) :
    Run (Option (StorageInterface σ) × Option GoError) :=
  match env.dotenvLoad with
  | some _ => .exits
  | none =>
    match env.LoadDefaultConfig (env.Getenv "AWS_S3_REGION") with
    | (_, some err) => .returns (none, some err)
    | (cfg, none) =>
      let client := env.NewFromConfig cfg
      .returns (some (.s3Storage
        { Type_ := "s3", Path := bucket, client := client, bucket := bucket }), none)

/-! ## s3.go: directory entries -/

/-- The struct `s3DirEntry` of s3.go. -/
structure s3DirEntry where
  name : String
  size : Int
  deriving DecidableEq, Repr

/-- The function `newS3DirEntry` of s3.go. -/
def newS3DirEntry (name : String) (size : Int) : s3DirEntry :=
  { name := name, size := size }

/-- The method `Name` of `s3DirEntry`. -/
def s3DirEntry.Name (e : s3DirEntry) : String := e.name

/-- The method `IsDir` of `s3DirEntry`. -/
def s3DirEntry.IsDir (e : s3DirEntry) : Bool := HasSuffix e.name "/"

/-! ## s3.go: the adapter methods -/

section S3
variable {σ : Type}

/-- Send `PutObject` to the client and record the request. -/
def S3World.putObject (c : S3Client σ) (params : PutObjectInput) (w : S3World σ) :
    (Option Unit × Option GoError) × S3World σ :=
  ((c.PutObject params w.state).1,
    { state := (c.PutObject params w.state).2, calls := w.calls ++ [.PutObject params] })

/-- Send `GetObject` to the client and record the request. -/
def S3World.getObject (c : S3Client σ) (params : GetObjectInput) (w : S3World σ) :
    (Option GetObjectOutput × Option GoError) × S3World σ :=
  ((c.GetObject params w.state).1,
    { state := (c.GetObject params w.state).2, calls := w.calls ++ [.GetObject params] })

/-- Send `ListObjectsV2` to the client and record the request. -/
def S3World.listObjectsV2 (c : S3Client σ) (params : ListObjectsV2Input) (w : S3World σ) :
    (Option ListObjectsV2Output × Option GoError) × S3World σ :=
  ((c.ListObjectsV2 params w.state).1,
    { state := (c.ListObjectsV2 params w.state).2,
      calls := w.calls ++ [.ListObjectsV2 params] })

/-- Send `DeleteObject` to the client and record the request. -/
def S3World.deleteObject (c : S3Client σ) (params : DeleteObjectInput) (w : S3World σ) :
    (Option Unit × Option GoError) × S3World σ :=
  ((c.DeleteObject params w.state).1,
    { state := (c.DeleteObject params w.state).2,
      calls := w.calls ++ [.DeleteObject params] })

/-- Send `HeadObject` to the client and record the request. -/
def S3World.headObject (c : S3Client σ) (params : HeadObjectInput) (w : S3World σ) :
    (Option Unit × Option GoError) × S3World σ :=
  ((c.HeadObject params w.state).1,
    { state := (c.HeadObject params w.state).2, calls := w.calls ++ [.HeadObject params] })

/-- The method `S3Storage.MakeDir`. -/
def S3Storage.MakeDir (_s : S3Storage σ) (_dir : String) (_path : String)
    (w : S3World σ) : Option GoError × S3World σ :=
  (none, w)

/-- The method `S3Storage.Write`: the returned value is the Go `error`. -/
def S3Storage.Write (s : S3Storage σ) (key : String) (content : String)
    (w : S3World σ) : Option GoError × S3World σ :=
  if content ≠ "" then
    let r := S3World.putObject s.client
      { Bucket := some s.bucket, Key := some key, Body := some content } w
    (r.1.2, r.2)
  else
    (none, w)

/-- The method `S3Storage.Read`: a nil `output` with a nil `err` panics at
`output.Body`. -/
def S3Storage.Read (s : S3Storage σ) (key : String) (w : S3World σ) :
    Run (Option String × Option GoError) × S3World σ :=
  let r := S3World.getObject s.client { Bucket := some s.bucket, Key := some key } w
  match r.1 with
  | (_, some err) => (.returns (none, some err), r.2)
  | (none, none) => (.panics, r.2)
  | (some output, none) => (.returns (output.Body, none), r.2)

/-- The loop of `S3Storage.ListDir` over `output.Contents`, with the slice
`entries` built so far.  `*obj.Size` and `*obj.Key` panic on nil. -/
def S3Storage.ListDir.loop : List Object → List s3DirEntry → Run (List s3DirEntry)
  | [], entries => .returns entries
  | obj :: rest, entries =>
    match obj.Size with
    | none => .panics
    | some size =>
      if size > 0 then
        match obj.Key with
        | none => .panics
        | some key => S3Storage.ListDir.loop rest (entries ++ [newS3DirEntry key size])
      else
        S3Storage.ListDir.loop rest entries

/-- The method `S3Storage.ListDir`. -/
def S3Storage.ListDir (s : S3Storage σ) (key : String) (w : S3World σ) :
    Run (Option (List s3DirEntry) × Option GoError) × S3World σ :=
  let prefix_ := if !HasSuffix key "/" then key ++ "/" else key
  let r := S3World.listObjectsV2 s.client
    { Bucket := some s.bucket, Prefix := some prefix_, Delimiter := some "/" } w
  match r.1 with
  | (_, some err) => (.returns (none, some err), r.2)
  | (none, none) => (.panics, r.2)
  | (some output, none) =>
    match S3Storage.ListDir.loop output.Contents [] with
    | .returns entries => (.returns (some entries, none), r.2)
    | .panics => (.panics, r.2)
    | .exits => (.exits, r.2)

/-- The method `S3Storage.Delete`. -/
def S3Storage.Delete (s : S3Storage σ) (key : String) (w : S3World σ) :
    Option GoError × S3World σ :=
  let r := S3World.deleteObject s.client { Bucket := some s.bucket, Key := some key } w
  (r.1.2, r.2)

/-- The method `S3Storage.Exists`. -/
def S3Storage.Exists (s : S3Storage σ) (key : String) (w : S3World σ) :
    (Bool × Option GoError) × S3World σ :=
  let r := S3World.headObject s.client { Bucket := some s.bucket, Key := some key } w
  match r.1.2 with
  | some _ => ((false, none), r.2)
  | none => ((true, none), r.2)

end S3

/-! ## Paths: package `path/filepath` on a Unix system -/

/-- The elements of a path between its separators: `"a//b"` gives
`["a", "", "b"]`, and `""` gives `[""]`. -/
def splitSlash (path : String) : List String :=
  (path.toList.foldr
    (fun c acc =>
      if c = '/' then [] :: acc
      else
        match acc with
        | [] => [[c]]
        | h :: t => (c :: h) :: t)
    [[]]).map String.mk

/-- Whether a path starts at the root directory. -/
def isRooted (path : String) : Bool :=
  decide (path.toList.head? = some '/')

/-- The element pass of `filepath.Clean`: `out` holds the elements kept so far,
last one first.  Empty and `.` elements are dropped; a `..` element removes
the element before it, is dropped at the start of a rooted path, and is kept
at the start of a path that is not rooted. -/
def cleanNames (rooted : Bool) : List String → List String → List String
  | out, [] => out.reverse
  | out, name :: rest =>
    if name = "" ∨ name = "." then cleanNames rooted out rest
    else if name = ".." then
      match out with
      | top :: below =>
        if top = ".." then cleanNames rooted (".." :: top :: below) rest
        else cleanNames rooted below rest
      | [] =>
        if rooted then cleanNames rooted [] rest
        else cleanNames rooted [".."] rest
    else cleanNames rooted (name :: out) rest

/-- The function `filepath.Clean`: the shortest path equivalent to `path` by
purely lexical processing; the empty result is written `"."`. -/
def Clean (path : String) : String :=
  if path = "" then "."
  else
    let names := cleanNames (isRooted path) [] (splitSlash path)
    if isRooted path then "/" ++ "/".intercalate names
    else if names = [] then "."
    else "/".intercalate names

/-- The function `filepath.Join`: the elements from the first non-empty one
on are joined with the separator and cleaned; if all are empty the result is
the empty string. -/
def Join : List String → String
  | [] => ""
  | e :: rest => if e ≠ "" then Clean ("/".intercalate (e :: rest)) else Join rest

/-! ## The operating system: files and directories -/

/-- An absolute location: the names on the way down from the root directory. -/
abbrev Location := List String

/-- What a location holds: a regular file or a directory (no links, devices or
pipes).  A file has its bytes and whether the process, which is not
privileged, may open it for reading and for writing; directories can always be
searched and changed. -/
inductive Node where
  | file (content : String) (readable : Bool) (writable : Bool)
  | dir
  deriving DecidableEq, Repr

/-- The state of the operating system as the package sees it: the working
directory and the umask of the process, the existing locations (the first
entry for a location counts), the number of characters the device can still
store and the number of open file handles.  The root directory `[]` always
exists. -/
structure FileSystem where
  cwd : Location
  umask : Nat
  entries : List (Location × Node)
  free : Nat
  openFiles : Nat
  deriving DecidableEq, Repr

/-- Whether a file created with the permission bits `perm` under the umask
`umask` has the permission bit numbered `bit`: the kernel stores
`perm &^ umask`.  Bit 8 is the owner's read bit (0400) and bit 7 the owner's
write bit (0200); the process owns the files it creates. -/
def createdWith (perm : Nat) (umask : Nat) (bit : Nat) : Bool :=
  perm.testBit bit && !umask.testBit bit

/-- The first entry for a location in a list of entries. -/
def lookupEntry (p : Location) : List (Location × Node) → Option Node
  | [] => none
  | (q, n) :: rest => if q = p then some n else lookupEntry p rest

/-- What a location holds, `none` when nothing exists there. -/
def FileSystem.find (fs : FileSystem) (p : Location) : Option Node :=
  if p = [] then some .dir else lookupEntry p fs.entries

/-- The locations strictly above a location, the root directory first. -/
def ancestors : Location → List Location
  | [] => []
  | c :: rest => [] :: (ancestors rest).map (fun q => c :: q)

/-- The error of walking down to a location, if any: every location above it
has to be a directory. -/
def FileSystem.searchError (fs : FileSystem) (p : Location) : Option Errno :=
  (ancestors p).findSome? (fun q =>
    match fs.find q with
    | some .dir => none
    | some (.file _ _ _) => some .ENOTDIR
    | none => some .ENOENT)

/-- The location a path names for the kernel: a rooted path starts at the root
directory, any other at the working directory; `.` stays and `..` goes up.
The empty path is `ENOENT` and a path with a NUL byte is `EINVAL`. -/
def FileSystem.locate (fs : FileSystem) (name : String) : Except Errno Location :=
  if name = "" then .error .ENOENT
  else if (Char.ofNat 0) ∈ name.toList then .error .EINVAL
  else
    .ok ((splitSlash name).foldl
      (fun loc c =>
        if c = "" ∨ c = "." then loc
        else if c = ".." then loc.dropLast
        else loc ++ [c])
      (if isRooted name then [] else fs.cwd))

/-- The value `*os.File`: the name it was opened with and the location it is
open on. -/
structure File where
  name : String
  loc : Location
  deriving DecidableEq, Repr

/-- The two ways the package opens a file: `os.Open` (read only) and
`os.OpenFile(_, os.O_APPEND|os.O_CREATE|os.O_WRONLY, 0644)`. -/
inductive OpenFlag where
  | O_RDONLY
  | O_APPEND_CREATE_WRONLY
  deriving DecidableEq, Repr

/-- The function `os.OpenFile` for the two flag sets above.  With
`O_CREATE` a missing file is created empty with the permission bits `perm`
less the umask, and the open that creates it succeeds whatever those bits are;
an existing file is opened as it is, if its permissions allow, and keeps its
bytes. -/
def FileSystem.OpenFile (fs : FileSystem) (name : String) (flag : OpenFlag) (perm : Nat) :
    Except GoError File × FileSystem :=
  match fs.locate name with
  | .error e => (.error (.pathError "open" name e), fs)
  | .ok p =>
    match fs.searchError p with
    | some e => (.error (.pathError "open" name e), fs)
    | none =>
      match fs.find p, flag with
      | some .dir, .O_RDONLY =>
        (.ok { name := name, loc := p }, { fs with openFiles := fs.openFiles + 1 })
      | some .dir, .O_APPEND_CREATE_WRONLY =>
        (.error (.pathError "open" name .EISDIR), fs)
      | some (.file _ readable _), .O_RDONLY =>
        if readable then
          (.ok { name := name, loc := p }, { fs with openFiles := fs.openFiles + 1 })
        else (.error (.pathError "open" name .EACCES), fs)
      | some (.file _ _ writable), .O_APPEND_CREATE_WRONLY =>
        if writable then
          (.ok { name := name, loc := p }, { fs with openFiles := fs.openFiles + 1 })
        else (.error (.pathError "open" name .EACCES), fs)
      | none, .O_RDONLY => (.error (.pathError "open" name .ENOENT), fs)
      | none, .O_APPEND_CREATE_WRONLY =>
        (.ok { name := name, loc := p },
          { fs with entries :=
                      (p, .file "" (createdWith perm fs.umask 8) (createdWith perm fs.umask 7))
                        :: fs.entries,
                    openFiles := fs.openFiles + 1 })

/-- The function `os.Open`: `OpenFile(name, O_RDONLY, 0)`. -/
def FileSystem.Open (fs : FileSystem) (name : String) : Except GoError File × FileSystem :=
  fs.OpenFile name .O_RDONLY 0

/-- Replace what every entry for a location holds. -/
def setEntry (p : Location) (n : Node) (entries : List (Location × Node)) :
    List (Location × Node) :=
  entries.map (fun e => if e.1 = p then (p, n) else e)

/-- The method `(*os.File).WriteString` on a file opened with `O_APPEND`: the
bytes go to the end of the file, whatever its permissions are now (they were
checked by the open).  When the device is full the part that fits is written
and the error is `ENOSPC`. -/
def FileSystem.WriteString (fs : FileSystem) (file : File) (s : String) :
    Option GoError × FileSystem :=
  match fs.find file.loc with
  | some (.file content readable writable) =>
    if s.length ≤ fs.free then
      (none,
        { fs with entries := setEntry file.loc (.file (content ++ s) readable writable) fs.entries,
                  free := fs.free - s.length })
    else
      (some (.pathError "write" file.name .ENOSPC),
        { fs with entries :=
                    setEntry file.loc
                      (.file (content ++ String.mk (s.toList.take fs.free)) readable writable)
                      fs.entries,
                  free := 0 })
  | _ => (some (.pathError "write" file.name .EINVAL), fs)

/-- The method `(*os.File).Close`. -/
def FileSystem.Close (fs : FileSystem) (_file : File) : FileSystem :=
  { fs with openFiles := fs.openFiles - 1 }

/-- All the bytes a handle from `os.Open` yields (`io.Copy`, `io.ReadAll`). -/
def FileSystem.ReadAll (fs : FileSystem) (file : File) : Except GoError String :=
  match fs.find file.loc with
  | some (.file content _ _) => .ok content
  | some .dir => .error (.pathError "read" file.name .EISDIR)
  | none => .error (.pathError "read" file.name .EINVAL)

/-- The function `os.Stat`; the `FileInfo` is rendered as the node found. -/
def FileSystem.Stat (fs : FileSystem) (name : String) : Except GoError Node :=
  match fs.locate name with
  | .error e => .error (.pathError "stat" name e)
  | .ok p =>
    match fs.searchError p with
    | some e => .error (.pathError "stat" name e)
    | none =>
      match fs.find p with
      | some n => .ok n
      | none => .error (.pathError "stat" name .ENOENT)

/-- The function `os.Remove`: it removes a file or an empty directory.  The
root directory is busy, and a name ending in `.` or `..` cannot be removed. -/
def FileSystem.Remove (fs : FileSystem) (name : String) : Option GoError × FileSystem :=
  match fs.locate name with
  | .error e => (some (.pathError "remove" name e), fs)
  | .ok p =>
    match fs.searchError p with
    | some e => (some (.pathError "remove" name e), fs)
    | none =>
      if (splitSlash name).getLast? = some "." then
        (some (.pathError "remove" name .EINVAL), fs)
      else if (splitSlash name).getLast? = some ".." then
        (some (.pathError "remove" name .ENOTEMPTY), fs)
      else if p = [] then (some (.pathError "remove" name .EBUSY), fs)
      else
        match fs.find p with
        | none => (some (.pathError "remove" name .ENOENT), fs)
        | some (.file _ _ _) =>
          (none, { fs with entries := fs.entries.filter (fun e => decide (e.1 ≠ p)) })
        | some .dir =>
          if fs.entries.any (fun e => decide (e.1 ≠ p) && p.isPrefixOf e.1) then
            (some (.pathError "remove" name .ENOTEMPTY), fs)
          else
            (none, { fs with entries := fs.entries.filter (fun e => decide (e.1 ≠ p)) })

/-- The function `os.IsNotExist` on the errors of this model: a path error
whose cause is `ENOENT`. -/
def IsNotExist (err : GoError) : Bool :=
  match err with
  | .pathError _ _ .ENOENT => true
  | _ => false

/-! ## local.go: the adapter methods -/

/-- The method `LocalStorage.Write`: the returned value is the Go `error`.
With empty content the opened file is not closed. -/
def LocalStorage.Write (l : LocalStorage) (key : String) (content : String)
    (fs : FileSystem) : Option GoError × FileSystem :=
  let fullPath := Join [l.Path, key]
  match fs.OpenFile fullPath .O_APPEND_CREATE_WRONLY 0o644 with
  | (.error err, fs1) => (some err, fs1)
  | (.ok file, fs1) =>
    if content ≠ "" then
      match fs1.WriteString file content with
      | (some err, fs2) => (some err, fs2.Close file)
      | (none, fs2) => (none, fs2.Close file)
    else
      (none, fs1)

/-- The method `LocalStorage.Read`: the result of `os.Open`. -/
def LocalStorage.Read (l : LocalStorage) (key : String) (fs : FileSystem) :
    Except GoError File × FileSystem :=
  let fullPath := Join [l.Path, key]
  fs.Open fullPath

/-- The method `LocalStorage.Delete`. -/
def LocalStorage.Delete (l : LocalStorage) (key : String) (fs : FileSystem) :
    Option GoError × FileSystem :=
  let fullPath := Join [l.Path, key]
  fs.Remove fullPath

/-- The method `LocalStorage.Exists`. -/
def LocalStorage.Exists (l : LocalStorage) (key : String) (fs : FileSystem) :
    Bool × Option GoError :=
  let fullPath := Join [l.Path, key]
  match fs.Stat fullPath with
  | .ok _ => (true, none)
  | .error err =>
    if IsNotExist err then (false, none)
    else (false, some err)

/-- The directory tree `setupTest` of local_test.go builds, seen from a
working directory `/work`, under the usual umask 022. -/
def testTree : FileSystem :=
  { cwd := ["work"],
    umask := 0o022,
    entries :=
      [ (["work"], .dir),
        (["work", "testdir"], .dir),
        (["work", "testdir", "subdir"], .dir),
        (["work", "testdir", "subdir", "1.txt"], .file "" true true),
        (["work", "testdir", "subdir", "2.txt"], .file "" true true),
        (["work", "testdir", "subdir", "3.txt"], .file "" true true),
        (["work", "testdir", "subdir", "4.txt"], .file "" true true),
        (["work", "testdir", "test.txt"], .file "random text" true true) ],
    free := 1000000,
    openFiles := 0 }

/-! ## Fixtures of the tests -/

/-- The adapter the tests of local_test.go build: `CreateStorage("local", "testdir")`. -/
def testLocal : LocalStorage := newLocalStorage "testdir"

/-- The mock client of s3_test.go: every call succeeds, `GetObject` yields
"test content" and `ListObjectsV2` yields the listing given. -/
def mockS3Client (listing : ListObjectsV2Output) : S3Client Unit :=
  { PutObject := fun _ st => ((some (), none), st),
    GetObject := fun _ st => ((some { Body := some "test content" }, none), st),
    ListObjectsV2 := fun _ st => ((some listing, none), st),
    DeleteObject := fun _ st => ((some (), none), st),
    HeadObject := fun _ st => ((some (), none), st) }

/-- The listing of `TestS3Storage_ListDir`, after a directory placeholder of
size zero. -/
def mockListing : List (String × Int) :=
  [("folder/", 0), ("folder/file1.txt", 100), ("folder/file2.txt", 200)]

/-- The adapter the tests of s3_test.go build, on bucket "testbucket". -/
def testS3 : S3Storage Unit :=
  { Type_ := "s3", Path := "testbucket",
    client := mockS3Client
      { Contents := mockListing.map (fun o => { Key := some o.1, Size := some o.2 }) },
    bucket := "testbucket" }

/-- The state of the mock client before any call. -/
def freshWorld : S3World Unit := { state := (), calls := [] }

/-- Surroundings in which the `.env` file and the configuration load. -/
def testAmbient : Ambient Unit Unit :=
  { dotenvLoad := none,
    Getenv := fun _ => "eu-west-3",
    LoadDefaultConfig := fun _ => ((), none),
    NewFromConfig := fun _ => mockS3Client { Contents := [] } }

/-- The same tree for a process whose umask clears every read bit. -/
def maskedTree : FileSystem := { testTree with umask := 0o444 }

/-! ## Facts about strings -/

theorem HasSuffix_append_slash (key : String) : HasSuffix (key ++ "/") "/" = true := by
  have h : (key ++ "/").toList = key.toList ++ [ '/'] := by
    simp [String.toList]
  simp [HasSuffix, h]

/-! ## The factory -/

/-- C6: every tag other than "local" and "s3" gets a nil handle and a non-nil
error, and the tag "local" gets a nil error and a LocalStorage whose Type is
"local" and whose Path is the root given. -/
theorem CreateStorage_local_and_unknown {σ : Type} :
    (∀ tag root : String, tag ≠ "local" → tag ≠ "s3" →
      ∃ err, (CreateStorage tag root : Option (StorageInterface σ) × Option GoError)
        = (none, some err)) ∧
    (∀ p : String, ∃ l : LocalStorage,
      (CreateStorage "local" p : Option (StorageInterface σ) × Option GoError)
        = (some (.localStorage l), none) ∧ l.Type_ = "local" ∧ l.Path = p) := by
  refine ⟨?_, ?_⟩
  · intro tag root hlocal _
    refine ⟨.errorf "Wrong storage type passed", ?_⟩
    unfold CreateStorage
    split
    · exact absurd rfl hlocal
    · rfl
  · intro p
    exact ⟨newLocalStorage p, rfl, rfl, rfl⟩


/-- C5 (the code at the failing input): for every bucket name the factory
answers the tag "s3" with a nil handle and the unsupported-backend error,
although `newS3Storage`, given surroundings that load, builds an S3Storage of
Type "s3" rooted at that bucket. -/
theorem CreateStorage_s3_unsupported {σ κ : Type} (b : String) :
    (CreateStorage "s3" b : Option (StorageInterface σ) × Option GoError)
      = (none, some (.errorf "Wrong storage type passed")) ∧
    (∀ (env : Ambient σ κ), env.dotenvLoad = none →
      (env.LoadDefaultConfig (env.Getenv "AWS_S3_REGION")).2 = none →
      ∃ s : S3Storage σ, newS3Storage env b = .returns (some (.s3Storage s), none) ∧
        s.Type_ = "s3" ∧ s.Path = b ∧ s.bucket = b) := by
  refine ⟨rfl, ?_⟩
  intro env hload hcfg
  unfold newS3Storage
  rw [hload]
  rcases hc : env.LoadDefaultConfig (env.Getenv "AWS_S3_REGION") with ⟨cfg, e⟩
  rw [hc] at hcfg
  simp only at hcfg
  subst hcfg
  exact ⟨_, rfl, rfl, rfl, rfl⟩

/-! ## The object-store adapter -/

section S3
variable {σ : Type}

theorem ListDir_loop_eq (objs : List (String × Int)) (entries : List s3DirEntry) :
    S3Storage.ListDir.loop
        (objs.map (fun o => ({ Key := some o.1, Size := some o.2 } : Object))) entries
      = .returns (entries ++
          (objs.filter (fun o => decide (o.2 > 0))).map (fun o => newS3DirEntry o.1 o.2)) := by
  induction objs generalizing entries with
  | nil => simp [S3Storage.ListDir.loop]
  | cons o rest ih =>
    by_cases h : o.2 > 0
    · simp [S3Storage.ListDir.loop, h, ih]
    · simp [S3Storage.ListDir.loop, h, ih]

/-- C4: when the listing call succeeds with objects that all carry a key and a
size, ListDir returns no error and one entry per object of size > 0, in the
order of the response, named by the full object key; objects of size zero are
left out, so the number of entries is the number of objects of size > 0. -/
theorem S3Storage_ListDir_entries (s : S3Storage σ) (key : String) (w : S3World σ)
    (objs : List (String × Int))
    (hresp : (s.client.ListObjectsV2
        { Bucket := some s.bucket,
          Prefix := some (if HasSuffix key "/" then key else key ++ "/"),
          Delimiter := some "/" } w.state).1
      = (some { Contents := objs.map (fun o => { Key := some o.1, Size := some o.2 }) },
          none)) :
    ∃ entries : List s3DirEntry,
      (s.ListDir key w).1 = .returns (some entries, none) ∧
      entries = (objs.filter (fun o => decide (o.2 > 0))).map
        (fun o => newS3DirEntry o.1 o.2) ∧
      entries.map s3DirEntry.Name
        = (objs.filter (fun o => decide (o.2 > 0))).map (fun o => o.1) ∧
      entries.length = (objs.filter (fun o => decide (o.2 > 0))).length ∧
      (∀ e ∈ entries, e.size > 0) := by
  refine ⟨_, ?_, rfl, ?_, ?_, ?_⟩
  · unfold S3Storage.ListDir S3World.listObjectsV2
    cases hk : HasSuffix key "/"
    · rw [hk] at hresp
      simp only [Bool.false_eq_true, if_false] at hresp
      simp [hresp, ListDir_loop_eq]
    · rw [hk] at hresp
      simp only [if_true] at hresp
      simp [hresp, ListDir_loop_eq]
  · simp [s3DirEntry.Name, newS3DirEntry, Function.comp_def]
  · simp
  · intro e he
    simp only [List.mem_map, List.mem_filter] at he
    obtain ⟨o, ⟨_, ho⟩, rfl⟩ := he
    simpa [newS3DirEntry] using ho

/-- C7: Exists on the object store never returns an error; its answer is true
exactly when the HeadObject call returned a nil error, and false for every
error HeadObject returns. -/
theorem S3Storage_Exists_no_error (s : S3Storage σ) (key : String) (w : S3World σ) :
    (s.Exists key w).1
      = (decide ((s.client.HeadObject { Bucket := some s.bucket, Key := some key }
          w.state).1.2 = none), none) ∧
    (s.Exists key w).2.calls
      = w.calls ++ [.HeadObject { Bucket := some s.bucket, Key := some key }] := by
  unfold S3Storage.Exists S3World.headObject
  cases h : (s.client.HeadObject { Bucket := some s.bucket, Key := some key } w.state).1.2
    <;> simp [h]

/-- C8: Write with empty content issues no client call and returns nil; Write
with non-empty content issues exactly one PutObject request with the adapter's
bucket, the key and the content as body, and returns the error of that call
unchanged. -/
theorem S3Storage_Write_put (s : S3Storage σ) (key : String) (w : S3World σ) :
    s.Write key "" w = (none, w) ∧
    (∀ content : String, content ≠ "" →
      (s.Write key content w).2.calls
        = w.calls ++
          [.PutObject { Bucket := some s.bucket, Key := some key, Body := some content }] ∧
      (s.Write key content w).1
        = (s.client.PutObject
            { Bucket := some s.bucket, Key := some key, Body := some content } w.state).1.2 ∧
      (s.Write key content w).2.state
        = (s.client.PutObject
            { Bucket := some s.bucket, Key := some key, Body := some content } w.state).2) := by
  refine ⟨?_, ?_⟩
  · simp [S3Storage.Write]
  · intro content hc
    simp [S3Storage.Write, S3World.putObject, hc]

/-- C9: ListDir issues one ListObjectsV2 request, with delimiter "/" and with
the prefix key when key ends with "/" and key ++ "/" otherwise; the prefix
ends with "/", and for a key k not ending with "/" the calls ListDir k and
ListDir (k ++ "/") issue the same request and end the same way. -/
theorem S3Storage_ListDir_request (s : S3Storage σ) (key : String) (w : S3World σ) :
    (s.ListDir key w).2.calls
      = w.calls ++
        [.ListObjectsV2
          { Bucket := some s.bucket,
            Prefix := some (if HasSuffix key "/" then key else key ++ "/"),
            Delimiter := some "/" }] ∧
    HasSuffix (if HasSuffix key "/" then key else key ++ "/") "/" = true ∧
    (HasSuffix key "/" = false → s.ListDir key w = s.ListDir (key ++ "/") w) := by
  refine ⟨?_, ?_, ?_⟩
  · unfold S3Storage.ListDir
    by_cases hk : HasSuffix key "/" = true
    · simp only [hk, Bool.not_true, Bool.false_eq_true, if_false, if_true]
      split <;> first | rfl | (split <;> rfl)
    · simp only [hk, Bool.not_false, if_true, if_false]
      split <;> first | rfl | (split <;> rfl)
  · by_cases hk : HasSuffix key "/" = true
    · simp [hk]
    · simp [hk, HasSuffix_append_slash]
  · intro hk
    unfold S3Storage.ListDir
    simp [hk, HasSuffix_append_slash]

end S3

/-! ## Facts about the file-system model -/

theorem ancestors_length {p q : Location} (h : q ∈ ancestors p) : q.length < p.length := by
  induction p generalizing q with
  | nil => simp [ancestors] at h
  | cons c rest ih =>
    simp only [ancestors, List.mem_cons, List.mem_map] at h
    rcases h with rfl | ⟨q', hq', rfl⟩
    · simp
    · have := ih hq'
      simp
      omega

theorem ancestors_ne {p q : Location} (h : q ∈ ancestors p) : q ≠ p := by
  intro hqp
  have := ancestors_length h
  rw [hqp] at this
  exact Nat.lt_irrefl _ this

theorem findSome_congr {α β : Type} (l : List α) (f g : α → Option β)
    (h : ∀ x ∈ l, f x = g x) : l.findSome? f = l.findSome? g := by
  induction l with
  | nil => rfl
  | cons a rest ih =>
    have ha : f a = g a := h a (List.mem_cons_self _ _)
    have hrest : ∀ x ∈ rest, f x = g x := fun x hx => h x (List.mem_cons_of_mem _ hx)
    simp only [List.findSome?, ha, ih hrest]

theorem searchError_congr (fs fs1 : FileSystem) (p : Location)
    (h : ∀ q, q ≠ p → fs1.find q = fs.find q) : fs1.searchError p = fs.searchError p := by
  unfold FileSystem.searchError
  apply findSome_congr
  intro q hq
  rw [h q (ancestors_ne hq)]

theorem locate_congr (fs fs1 : FileSystem) (name : String) (h : fs1.cwd = fs.cwd) :
    fs1.locate name = fs.locate name := by
  unfold FileSystem.locate
  rw [h]

theorem lookupEntry_cons (q k : Location) (v : Node) (rest : List (Location × Node)) :
    lookupEntry q ((k, v) :: rest) = if k = q then some v else lookupEntry q rest := rfl

theorem setEntry_cons (p k : Location) (n v : Node) (rest : List (Location × Node)) :
    setEntry p n ((k, v) :: rest)
      = (if k = p then (p, n) else (k, v)) :: setEntry p n rest := rfl

theorem lookupEntry_setEntry (p q : Location) (n : Node) (es : List (Location × Node)) :
    lookupEntry q (setEntry p n es)
      = if q = p then (lookupEntry p es).map (fun _ => n) else lookupEntry q es := by
  induction es with
  | nil => simp [setEntry, lookupEntry]
  | cons e rest ih =>
    obtain ⟨k, v⟩ := e
    rw [setEntry_cons]
    by_cases hk : k = p
    · subst hk
      rw [if_pos rfl, lookupEntry_cons, lookupEntry_cons, lookupEntry_cons, ih]
      by_cases hq : q = k
      · subst hq
        simp
      · have hkq : ¬ k = q := fun h => hq h.symm
        simp [hq, hkq]
    · rw [if_neg hk, lookupEntry_cons, lookupEntry_cons, lookupEntry_cons, ih]
      by_cases hq : q = p
      · subst hq
        simp [hk]
      · by_cases hkq : k = q
        · simp [hkq, hq]
        · simp [hkq, hq]

theorem lookupEntry_filter (p q : Location) (es : List (Location × Node)) :
    lookupEntry q (es.filter (fun e => decide (e.1 ≠ p)))
      = if q = p then none else lookupEntry q es := by
  induction es with
  | nil => simp [lookupEntry]
  | cons e rest ih =>
    obtain ⟨k, v⟩ := e
    by_cases hk : k = p
    · subst hk
      have hf : List.filter (fun e => decide (e.1 ≠ k)) ((k, v) :: rest)
          = List.filter (fun e => decide (e.1 ≠ k)) rest := by
        simp [List.filter]
      rw [hf, ih, lookupEntry_cons]
      by_cases hq : q = k
      · simp [hq]
      · have hkq : ¬ k = q := fun h => hq h.symm
        simp [hq, hkq]
    · have hf : List.filter (fun e => decide (e.1 ≠ p)) ((k, v) :: rest)
          = (k, v) :: List.filter (fun e => decide (e.1 ≠ p)) rest := by
        simp [List.filter, hk]
      rw [hf, lookupEntry_cons, lookupEntry_cons, ih]
      by_cases hq : q = p
      · subst hq
        simp [hk]
      · simp [hq]

theorem find_root (fs : FileSystem) : fs.find [] = some .dir := by
  simp [FileSystem.find]

theorem ne_nil_of_find_none {fs : FileSystem} {p : Location} (h : fs.find p = none) :
    p ≠ [] := by
  intro hp
  rw [hp, find_root] at h
  exact Option.noConfusion h

theorem ne_nil_of_find_file {fs : FileSystem} {p : Location} {c : String} {r w : Bool}
    (h : fs.find p = some (.file c r w)) : p ≠ [] := by
  intro hp
  rw [hp, find_root] at h
  simp at h

theorem find_of_entries (fs fs1 : FileSystem) (h : fs1.entries = fs.entries) (q : Location) :
    fs1.find q = fs.find q := by
  simp [FileSystem.find, h]

theorem find_cons_entry (fs fs1 : FileSystem) (p : Location) (n : Node) (hp : p ≠ [])
    (h : fs1.entries = (p, n) :: fs.entries) (q : Location) :
    fs1.find q = if q = p then some n else fs.find q := by
  unfold FileSystem.find
  rw [h, lookupEntry_cons]
  by_cases hq : q = p
  · subst hq
    simp [hp]
  · have hpq : ¬ p = q := fun h => hq h.symm
    simp [hq, hpq]

theorem find_setEntry (fs fs1 : FileSystem) (p : Location) (n m : Node) (hp : p ≠ [])
    (hfind : fs.find p = some m) (h : fs1.entries = setEntry p n fs.entries) (q : Location) :
    fs1.find q = if q = p then some n else fs.find q := by
  have hl : lookupEntry p fs.entries = some m := by
    simpa [FileSystem.find, hp] using hfind
  unfold FileSystem.find
  rw [h, lookupEntry_setEntry]
  by_cases hq : q = p
  · subst hq
    simp [hp, hl]
  · simp [hq]

theorem find_filter (fs fs1 : FileSystem) (p : Location) (hp : p ≠ [])
    (h : fs1.entries = fs.entries.filter (fun e => decide (e.1 ≠ p))) (q : Location) :
    fs1.find q = if q = p then none else fs.find q := by
  unfold FileSystem.find
  rw [h, lookupEntry_filter]
  by_cases hq : q = p
  · subst hq
    simp [hp]
  · simp [hq]

/-- How `os.OpenFile` with `O_APPEND|O_CREATE|O_WRONLY` ends: with an error and
the state as it was, on an existing writable file, or on a file it creates. -/
theorem OpenFile_append_cases (fs : FileSystem) (name : String) (perm : Nat) :
    (∃ err, fs.OpenFile name .O_APPEND_CREATE_WRONLY perm = (.error err, fs)) ∨
    (∃ p, fs.locate name = .ok p ∧ fs.searchError p = none ∧
      ((∃ c r, fs.find p = some (.file c r true) ∧
          fs.OpenFile name .O_APPEND_CREATE_WRONLY perm
            = (.ok { name := name, loc := p }, { fs with openFiles := fs.openFiles + 1 })) ∨
        (fs.find p = none ∧
          fs.OpenFile name .O_APPEND_CREATE_WRONLY perm
            = (.ok { name := name, loc := p },
                { fs with entries := (p, .file "" (createdWith perm fs.umask 8) (createdWith perm fs.umask 7)) :: fs.entries,
                          openFiles := fs.openFiles + 1 })))) := by
  cases hloc : fs.locate name with
  | error e => exact Or.inl ⟨.pathError "open" name e, by simp [FileSystem.OpenFile, hloc]⟩
  | ok p =>
    cases hs : fs.searchError p with
    | some e =>
      exact Or.inl ⟨.pathError "open" name e, by simp [FileSystem.OpenFile, hloc, hs]⟩
    | none =>
      cases hf : fs.find p with
      | none =>
        exact Or.inr ⟨p, rfl, hs, Or.inr ⟨hf, by simp [FileSystem.OpenFile, hloc, hs, hf]⟩⟩
      | some n =>
        cases n with
        | dir =>
          exact Or.inl ⟨.pathError "open" name .EISDIR,
            by simp [FileSystem.OpenFile, hloc, hs, hf]⟩
        | file c r w =>
          cases w with
          | false =>
            exact Or.inl ⟨.pathError "open" name .EACCES,
              by simp [FileSystem.OpenFile, hloc, hs, hf]⟩
          | true =>
            exact Or.inr ⟨p, rfl, hs,
              Or.inl ⟨c, r, hf, by simp [FileSystem.OpenFile, hloc, hs, hf]⟩⟩

/-- A successful `os.Stat` from what the location holds. -/
theorem Stat_of_find (fs : FileSystem) (name : String) (p : Location) (n : Node)
    (hloc : fs.locate name = .ok p) (hs : fs.searchError p = none)
    (hf : fs.find p = some n) : fs.Stat name = .ok n := by
  simp [FileSystem.Stat, hloc, hs, hf]

/-- The `os.Stat` of a missing last element under existing directories. -/
theorem Stat_of_find_none (fs : FileSystem) (name : String) (p : Location)
    (hloc : fs.locate name = .ok p) (hs : fs.searchError p = none)
    (hf : fs.find p = none) : fs.Stat name = .error (.pathError "stat" name .ENOENT) := by
  simp [FileSystem.Stat, hloc, hs, hf]

/-- What `WriteString` does to a handle open on a file: only what that file
holds changes, and without an error it holds the earlier bytes and then `s`. -/
theorem WriteString_spec (fs : FileSystem) (file : File) (s c : String) (r w : Bool)
    (hf : fs.find file.loc = some (.file c r w)) :
    (fs.WriteString file s).2.cwd = fs.cwd ∧
    (∀ q, q ≠ file.loc → (fs.WriteString file s).2.find q = fs.find q) ∧
    (∃ c1, (fs.WriteString file s).2.find file.loc = some (.file c1 r w)) ∧
    ((fs.WriteString file s).1 = none →
      (fs.WriteString file s).2.find file.loc = some (.file (c ++ s) r w)) := by
  have hp : file.loc ≠ [] := ne_nil_of_find_file hf
  by_cases hfree : s.length ≤ fs.free
  · have hw : fs.WriteString file s
        = (none,
            { fs with entries := setEntry file.loc (.file (c ++ s) r w) fs.entries,
                      free := fs.free - s.length }) := by
      simp [FileSystem.WriteString, hf, hfree]
    rw [hw]
    refine ⟨rfl, ?_, ?_, ?_⟩
    · intro q hq
      rw [find_setEntry fs _ file.loc _ _ hp hf rfl q, if_neg hq]
    · exact ⟨_, by rw [find_setEntry fs _ file.loc _ _ hp hf rfl file.loc, if_pos rfl]⟩
    · intro _
      rw [find_setEntry fs _ file.loc _ _ hp hf rfl file.loc, if_pos rfl]
  · have hw : fs.WriteString file s
        = (some (.pathError "write" file.name .ENOSPC),
            { fs with entries :=
                        setEntry file.loc
                          (.file (c ++ String.mk (s.toList.take fs.free)) r w) fs.entries,
                      free := 0 }) := by
      simp [FileSystem.WriteString, hf, hfree]
    rw [hw]
    refine ⟨rfl, ?_, ?_, ?_⟩
    · intro q hq
      rw [find_setEntry fs _ file.loc _ _ hp hf rfl q, if_neg hq]
    · exact ⟨_, by rw [find_setEntry fs _ file.loc _ _ hp hf rfl file.loc, if_pos rfl]⟩
    · intro h
      simp at h

theorem find_Close (fs : FileSystem) (file : File) (q : Location) :
    (fs.Close file).find q = fs.find q := rfl

/-- The method `Write` past a successful open. -/
theorem Write_of_open (l : LocalStorage) (key content : String) (fs fs1 : FileSystem)
    (file : File)
    (he : fs.OpenFile (Join [l.Path, key]) .O_APPEND_CREATE_WRONLY 0o644 = (.ok file, fs1)) :
    l.Write key content fs
      = if content ≠ "" then
          ((fs1.WriteString file content).1, (fs1.WriteString file content).2.Close file)
        else (none, fs1) := by
  unfold LocalStorage.Write
  simp only [he]
  by_cases hc : content = ""
  · simp [hc]
  · simp only [ne_eq, hc, not_false_eq_true, if_true]
    rcases hw : fs1.WriteString file content with ⟨_ | err, fs2⟩ <;> rfl

/-- How `LocalStorage.Write` ends: with the error of the open and the state as
it was, or past a successful open of a location `p` under existing
directories, and then everywhere but at `p` the state holds what it held. -/
theorem Write_cases (l : LocalStorage) (key content : String) (fs : FileSystem) :
    (∃ err, fs.OpenFile (Join [l.Path, key]) .O_APPEND_CREATE_WRONLY 0o644 = (.error err, fs) ∧
      l.Write key content fs = (some err, fs)) ∨
    (∃ p, fs.locate (Join [l.Path, key]) = .ok p ∧ fs.searchError p = none ∧ p ≠ [] ∧
      (l.Write key content fs).2.cwd = fs.cwd ∧
      (∀ q, q ≠ p → (l.Write key content fs).2.find q = fs.find q) ∧
      ((∃ c r, fs.find p = some (.file c r true)) ∨ fs.find p = none) ∧
      (∃ c r w, (l.Write key content fs).2.find p = some (.file c r w)) ∧
      ((l.Write key content fs).1 = none →
        (∀ c r w, fs.find p = some (.file c r w) →
          (l.Write key content fs).2.find p = some (.file (c ++ content) r w)) ∧
        (fs.find p = none →
          (l.Write key content fs).2.find p = some (.file content (createdWith 0o644 fs.umask 8) (createdWith 0o644 fs.umask 7))))) := by
  rcases OpenFile_append_cases fs (Join [l.Path, key]) 0o644 with ⟨err, he⟩ | ⟨p, hloc, hs, hcase⟩
  · left
    exact ⟨err, he, by simp [LocalStorage.Write, he]⟩
  · right
    rcases hcase with ⟨c, r, hf, he⟩ | ⟨hf, he⟩
    · have hp : p ≠ [] := ne_nil_of_find_file hf
      have hf1 : ({ fs with openFiles := fs.openFiles + 1 } : FileSystem).find
          (File.mk (Join [l.Path, key]) p).loc = some (.file c r true) := hf
      obtain ⟨hcwd, hoff, ⟨c1, hat⟩, hok⟩ :=
        WriteString_spec { fs with openFiles := fs.openFiles + 1 }
          { name := Join [l.Path, key], loc := p } content c r true hf1
      rw [Write_of_open l key content fs _ _ he]
      by_cases hc : content = ""
      · subst hc
        rw [if_neg (not_not.mpr rfl)]
        refine ⟨p, hloc, hs, hp, rfl, fun q _ => rfl, Or.inl ⟨c, r, hf⟩, ⟨c, r, true, hf⟩, ?_⟩
        intro _
        refine ⟨?_, ?_⟩
        · intro c2 r2 w2 h2
          have h3 : fs.find p = some (.file c2 r2 w2) := h2
          rw [String.append_empty]
          exact h3
        · intro hnone
          rw [hnone] at hf
          exact Option.noConfusion hf
      · rw [if_pos hc]
        refine ⟨p, hloc, hs, hp, hcwd, hoff, Or.inl ⟨c, r, hf⟩, ⟨c1, r, true, hat⟩, ?_⟩
        intro hnoerr
        refine ⟨?_, ?_⟩
        · intro c2 r2 w2 h2
          rw [hf] at h2
          simp only [Option.some.injEq, Node.file.injEq] at h2
          obtain ⟨rfl, rfl, rfl⟩ := h2
          exact hok hnoerr
        · intro hnone
          rw [hnone] at hf
          exact Option.noConfusion hf
    · have hp : p ≠ [] := ne_nil_of_find_none hf
      have hcreate : ∀ q,
          ({ fs with entries := (p, .file "" (createdWith 0o644 fs.umask 8) (createdWith 0o644 fs.umask 7)) :: fs.entries,
                     openFiles := fs.openFiles + 1 } : FileSystem).find q
            = if q = p then some (.file "" (createdWith 0o644 fs.umask 8) (createdWith 0o644 fs.umask 7)) else fs.find q :=
        fun q => find_cons_entry fs _ p _ hp rfl q
      have hf1 : ({ fs with entries := (p, .file "" (createdWith 0o644 fs.umask 8) (createdWith 0o644 fs.umask 7)) :: fs.entries,
                            openFiles := fs.openFiles + 1 } : FileSystem).find
          (File.mk (Join [l.Path, key]) p).loc = some (.file "" (createdWith 0o644 fs.umask 8) (createdWith 0o644 fs.umask 7)) := by
        rw [hcreate, if_pos rfl]
      obtain ⟨hcwd, hoff, ⟨c1, hat⟩, hok⟩ :=
        WriteString_spec _ { name := Join [l.Path, key], loc := p } content "" _ _ hf1
      rw [Write_of_open l key content fs _ _ he]
      by_cases hc : content = ""
      · subst hc
        rw [if_neg (not_not.mpr rfl)]
        refine ⟨p, hloc, hs, hp, rfl, ?_, Or.inr hf, ⟨"", _, _, hf1⟩, ?_⟩
        · intro q hq
          rw [hcreate, if_neg hq]
        · intro _
          refine ⟨?_, fun _ => hf1⟩
          intro c2 r2 w2 h2
          rw [hf] at h2
          exact Option.noConfusion h2
      · rw [if_pos hc]
        refine ⟨p, hloc, hs, hp, hcwd, ?_, Or.inr hf, ⟨c1, _, _, hat⟩, ?_⟩
        · intro q hq
          show (FileSystem.WriteString _ _ content).2.find q = fs.find q
          rw [hoff q hq, hcreate, if_neg hq]
        · intro hnoerr
          refine ⟨?_, ?_⟩
          · intro c2 r2 w2 h2
            rw [hf] at h2
            exact Option.noConfusion h2
          · intro _
            have := hok hnoerr
            rw [String.empty_append] at this
            exact this

/-- How a successful `os.Remove` changes the state: the entries of one
location other than the root directory, under existing directories, go. -/
theorem Remove_ok (fs : FileSystem) (name : String) (h : (fs.Remove name).1 = none) :
    ∃ p, fs.locate name = .ok p ∧ fs.searchError p = none ∧ p ≠ [] ∧
      (fs.Remove name).2.cwd = fs.cwd ∧
      (fs.Remove name).2.entries = fs.entries.filter (fun e => decide (e.1 ≠ p)) := by
  cases hloc : fs.locate name with
  | error e => simp [FileSystem.Remove, hloc] at h
  | ok p =>
    cases hs : fs.searchError p with
    | some e => simp [FileSystem.Remove, hloc, hs] at h
    | none =>
      by_cases h1 : (splitSlash name).getLast? = some "."
      · simp [FileSystem.Remove, hloc, hs, h1] at h
      · by_cases h2 : (splitSlash name).getLast? = some ".."
        · simp [FileSystem.Remove, hloc, hs, h1, h2] at h
        · by_cases hp : p = []
          · subst hp
            simp [FileSystem.Remove, hloc, hs, h1, h2] at h
          · cases hf : fs.find p with
            | none => simp [FileSystem.Remove, hloc, hs, h1, h2, hp, hf] at h
            | some n =>
              cases n with
              | file c r w =>
                have hr : fs.Remove name
                    = (none,
                        { fs with entries :=
                                    fs.entries.filter (fun e => decide (e.1 ≠ p)) }) := by
                  simp [FileSystem.Remove, hloc, hs, h1, h2, hp, hf]
                rw [hr]
                exact ⟨p, rfl, hs, hp, rfl, rfl⟩
              | dir =>
                cases hany : fs.entries.any
                    (fun e => decide (e.1 ≠ p) && p.isPrefixOf e.1) with
                | true =>
                  have hr : fs.Remove name
                      = (some (.pathError "remove" name .ENOTEMPTY), fs) := by
                    unfold FileSystem.Remove
                    simp only [hloc, hs, h1, h2, hp, hf, if_false, hany, if_true]
                  rw [hr] at h
                  simp at h
                | false =>
                  have hr : fs.Remove name
                      = (none,
                          { fs with entries :=
                                      fs.entries.filter (fun e => decide (e.1 ≠ p)) }) := by
                    unfold FileSystem.Remove
                    simp only [hloc, hs, h1, h2, hp, hf, if_false, hany]
                    rfl
                  rw [hr]
                  exact ⟨p, rfl, hs, hp, rfl, rfl⟩

theorem Stat_congr (fs fs1 : FileSystem) (name : String) (hcwd : fs1.cwd = fs.cwd)
    (hentries : fs1.entries = fs.entries) : fs1.Stat name = fs.Stat name := by
  simp [FileSystem.Stat, FileSystem.locate, FileSystem.searchError, FileSystem.find,
    hcwd, hentries]

/-- The end of `os.Open` and of reading the handle, on a readable file under
existing directories. -/
theorem Open_ReadAll (fs : FileSystem) (name : String) (p : Location) (c : String) (w : Bool)
    (hloc : fs.locate name = .ok p) (hs : fs.searchError p = none)
    (hf : fs.find p = some (.file c true w)) :
    ∃ file fs1, fs.Open name = (.ok file, fs1) ∧ fs1.ReadAll file = .ok c := by
  refine ⟨{ name := name, loc := p }, { fs with openFiles := fs.openFiles + 1 }, ?_, ?_⟩
  · simp [FileSystem.Open, FileSystem.OpenFile, hloc, hs, hf]
  · have : ({ fs with openFiles := fs.openFiles + 1 } : FileSystem).find p
        = some (.file c true w) := hf
    simp [FileSystem.ReadAll, this]

theorem createdWith_read (umask : Nat) : createdWith 0o644 umask 8 = !umask.testBit 8 := by
  have h : Nat.testBit 0o644 8 = true := by decide
  simp [createdWith, h]

theorem Exists_of_find (l : LocalStorage) (key : String) (fs : FileSystem) (p : Location)
    (n : Node) (hloc : fs.locate (Join [l.Path, key]) = .ok p)
    (hs : fs.searchError p = none) (hf : fs.find p = some n) :
    l.Exists key fs = (true, none) := by
  simp only [LocalStorage.Exists]
  rw [Stat_of_find _ _ p _ hloc hs hf]

theorem Exists_of_find_none (l : LocalStorage) (key : String) (fs : FileSystem)
    (p : Location) (hloc : fs.locate (Join [l.Path, key]) = .ok p)
    (hs : fs.searchError p = none) (hf : fs.find p = none) :
    l.Exists key fs = (false, none) := by
  simp only [LocalStorage.Exists]
  rw [Stat_of_find_none _ _ p hloc hs hf]
  rfl

/-! ## The file-system adapter -/

/-- C1 (amended): if Write(key, content) returns no error, then Read(key) on
the same root succeeds in these two cases.  When nothing existed at root/key
before the Write and the umask of the process leaves the owner's read bit, the
bytes read from the handle are content exactly.  When root/key was a file the
process may read, the bytes read are its earlier bytes followed by content. -/
theorem LocalStorage_Write_then_Read (l : LocalStorage) (key content : String)
    (fs : FileSystem) (hw : (l.Write key content fs).1 = none) :
    ∃ p, fs.locate (Join [l.Path, key]) = .ok p ∧
      (fs.find p = none → fs.umask.testBit 8 = false →
        ∃ file fs3, l.Read key (l.Write key content fs).2 = (.ok file, fs3) ∧
          fs3.ReadAll file = .ok content) ∧
      (∀ c w, fs.find p = some (.file c true w) →
        ∃ file fs3, l.Read key (l.Write key content fs).2 = (.ok file, fs3) ∧
          fs3.ReadAll file = .ok (c ++ content)) := by
  rcases Write_cases l key content fs with ⟨err, _, he⟩ | ⟨p, hloc, hs, _, hcwd, hoff, _, _, hok⟩
  · rw [he] at hw
    simp at hw
  · obtain ⟨hfile, hnew⟩ := hok hw
    have hloc2 : (l.Write key content fs).2.locate (Join [l.Path, key]) = .ok p := by
      rw [locate_congr fs _ _ hcwd, hloc]
    have hs2 : (l.Write key content fs).2.searchError p = none := by
      rw [searchError_congr fs _ p hoff, hs]
    refine ⟨p, hloc, ?_, ?_⟩
    · intro hnone hbit
      have hnode := hnew hnone
      rw [createdWith_read, hbit] at hnode
      exact Open_ReadAll _ _ p content _ hloc2 hs2 hnode
    · intro c w hf
      exact Open_ReadAll _ _ p (c ++ content) w hloc2 hs2 (hfile c true w hf)

/-- C2 (amended): Write(key, "") writes no bytes and does exactly what opening
root/key (append, create if absent, write only, mode 0644) does.  If the open
fails, Write returns the error of the open and the state is as before.  If the
open succeeds, Write returns no error, every location other than root/key
holds what it held and the free space is as before; a root/key that existed is
unchanged (same entries, same answer of Exists(key)); a root/key at which
nothing existed is now an empty file, and Exists(key) was (false, nil) before
and is (true, nil) after. -/
theorem LocalStorage_Write_empty (l : LocalStorage) (key : String) (fs : FileSystem) :
    (∀ err,
      (fs.OpenFile (Join [l.Path, key]) .O_APPEND_CREATE_WRONLY 0o644).1 = .error err →
        l.Write key "" fs = (some err, fs)) ∧
    (∀ file,
      (fs.OpenFile (Join [l.Path, key]) .O_APPEND_CREATE_WRONLY 0o644).1 = .ok file →
        (l.Write key "" fs).1 = none ∧
        ∃ p, fs.locate (Join [l.Path, key]) = .ok p ∧
          (∀ q, q ≠ p → (l.Write key "" fs).2.find q = fs.find q) ∧
          (l.Write key "" fs).2.free = fs.free ∧
          (∀ n, fs.find p = some n →
            (l.Write key "" fs).2.entries = fs.entries ∧
              l.Exists key (l.Write key "" fs).2 = l.Exists key fs) ∧
          (fs.find p = none →
            (∃ r w, (l.Write key "" fs).2.find p = some (.file "" r w)) ∧
              l.Exists key fs = (false, none) ∧
              l.Exists key (l.Write key "" fs).2 = (true, none))) := by
  rcases OpenFile_append_cases fs (Join [l.Path, key]) 0o644 with
    ⟨err, he⟩ | ⟨p, hloc, hs, ⟨c, r, hf, he⟩ | ⟨hf, he⟩⟩
  · have hwr : l.Write key "" fs = (some err, fs) := by simp [LocalStorage.Write, he]
    rw [hwr, he]
    refine ⟨?_, ?_⟩
    · intro err1 h1
      simp only [Except.error.injEq] at h1
      subst h1
      rfl
    · intro file h1
      simp at h1
  · rw [Write_of_open l key "" fs _ _ he, if_neg (not_not.mpr rfl), he]
    refine ⟨?_, ?_⟩
    · intro err1 h1
      simp at h1
    · intro file _
      refine ⟨rfl, p, hloc, fun q _ => rfl, rfl, ?_, ?_⟩
      · intro n _
        refine ⟨rfl, ?_⟩
        simp only [LocalStorage.Exists]
        rw [Stat_congr fs { fs with openFiles := fs.openFiles + 1 } _ rfl rfl]
      · intro hnone
        have : fs.find p = some (.file c r true) := hf
        rw [hnone] at this
        exact Option.noConfusion this
  · have hp : p ≠ [] := ne_nil_of_find_none hf
    have hcreate : ∀ q,
        ({ fs with entries :=
                     (p, .file "" (createdWith 0o644 fs.umask 8) (createdWith 0o644 fs.umask 7))
                       :: fs.entries,
                   openFiles := fs.openFiles + 1 } : FileSystem).find q
          = if q = p then
              some (.file "" (createdWith 0o644 fs.umask 8) (createdWith 0o644 fs.umask 7))
            else fs.find q :=
      fun q => find_cons_entry fs _ p _ hp rfl q
    rw [Write_of_open l key "" fs _ _ he, if_neg (not_not.mpr rfl), he]
    refine ⟨?_, ?_⟩
    · intro err1 h1
      simp at h1
    · intro file _
      refine ⟨rfl, p, hloc, ?_, rfl, ?_, ?_⟩
      · intro q hq
        rw [hcreate q, if_neg hq]
      · intro n hn
        have : fs.find p = some n := hn
        rw [hf] at this
        exact Option.noConfusion this
      · intro _
        refine ⟨⟨_, _, by rw [hcreate p, if_pos rfl]⟩,
          Exists_of_find_none l key fs p hloc hs hf, ?_⟩
        refine Exists_of_find l key _ p _ hloc ?_ (by rw [hcreate p, if_pos rfl])
        rw [searchError_congr fs _ p (fun q hq => by rw [hcreate q, if_neg hq]), hs]

/-- C3: if Write(key, content) returns no error then Exists(key) right after it
returns (true, nil), and if Delete(key) returns no error then Exists(key) right
after it returns (false, nil). -/
theorem LocalStorage_Exists_after_Write_and_Delete (l : LocalStorage) (key : String)
    (fs : FileSystem) :
    (∀ content : String, (l.Write key content fs).1 = none →
      l.Exists key (l.Write key content fs).2 = (true, none)) ∧
    ((l.Delete key fs).1 = none → l.Exists key (l.Delete key fs).2 = (false, none)) := by
  refine ⟨?_, ?_⟩
  · intro content hw
    rcases Write_cases l key content fs with
      ⟨err, _, he⟩ | ⟨p, hloc, hs, _, hcwd, hoff, _, ⟨c, r, w, hat⟩, _⟩
    · rw [he] at hw
      simp at hw
    · have hloc2 : (l.Write key content fs).2.locate (Join [l.Path, key]) = .ok p := by
        rw [locate_congr fs _ _ hcwd, hloc]
      have hs2 : (l.Write key content fs).2.searchError p = none := by
        rw [searchError_congr fs _ p hoff, hs]
      simp only [LocalStorage.Exists]
      rw [Stat_of_find _ _ p _ hloc2 hs2 hat]
  · intro hd
    unfold LocalStorage.Delete at hd ⊢
    obtain ⟨p, hloc, hs, hp, hcwd, hentries⟩ := Remove_ok fs _ hd
    have hfind : ∀ q, (fs.Remove (Join [l.Path, key])).2.find q
        = if q = p then none else fs.find q := fun q => find_filter fs _ p hp hentries q
    have hloc2 : (fs.Remove (Join [l.Path, key])).2.locate (Join [l.Path, key]) = .ok p := by
      rw [locate_congr fs _ _ hcwd, hloc]
    have hs2 : (fs.Remove (Join [l.Path, key])).2.searchError p = none := by
      rw [searchError_congr fs _ p (fun q hq => by rw [hfind q, if_neg hq]), hs]
    have hgone : (fs.Remove (Join [l.Path, key])).2.find p = none := by
      rw [hfind p, if_pos rfl]
    simp only [LocalStorage.Exists]
    rw [Stat_of_find_none _ _ p hloc2 hs2 hgone]
    rfl

/-- C10: Exists(key) returns (true, nil) when the stat of root/key succeeds,
(false, nil) when it fails with a not-exist error, and (false, err) with the
error of the stat unchanged for every other failure; it never returns true
together with an error. -/
theorem LocalStorage_Exists_three_way (l : LocalStorage) (key : String) (fs : FileSystem) :
    (∀ n, fs.Stat (Join [l.Path, key]) = .ok n → l.Exists key fs = (true, none)) ∧
    (∀ err, fs.Stat (Join [l.Path, key]) = .error err → IsNotExist err = true →
      l.Exists key fs = (false, none)) ∧
    (∀ err, fs.Stat (Join [l.Path, key]) = .error err → IsNotExist err = false →
      l.Exists key fs = (false, some err)) ∧
    (∀ err, l.Exists key fs ≠ (true, some err)) := by
  refine ⟨?_, ?_, ?_, ?_⟩
  · intro n h
    simp [LocalStorage.Exists, h]
  · intro err h hne
    simp [LocalStorage.Exists, h, hne]
  · intro err h hne
    simp [LocalStorage.Exists, h, hne]
  · intro err
    simp only [LocalStorage.Exists]
    cases h : fs.Stat (Join [l.Path, key]) with
    | ok n => simp
    | error e =>
      by_cases hne : IsNotExist e = true
      · simp [hne]
      · simp [hne]

/-! ## The theorems at concrete inputs -/

/-- C1 (the claim fails): `test.txt` holds "random text"; Write of "more"
returns no error and Read succeeds, but the bytes read are "random textmore",
not "more". -/
theorem LocalStorage_Write_then_Read_counterexample :
    (testLocal.Write "test.txt" "more" testTree).1 = none ∧
    (testLocal.Read "test.txt" (testLocal.Write "test.txt" "more" testTree).2).1
      = .ok { name := "testdir/test.txt", loc := ["work", "testdir", "test.txt"] } ∧
    (testLocal.Read "test.txt" (testLocal.Write "test.txt" "more" testTree).2).2.ReadAll
        { name := "testdir/test.txt", loc := ["work", "testdir", "test.txt"] }
      = .ok "random textmore" ∧
    "random textmore" ≠ "more" := by
  refine ⟨by rfl, by rfl, by rfl, by decide⟩

/-- C1 (amended) at the input of `TestWrite`: `write.txt` does not exist, the
Write of "random text" returns no error, the umask 022 leaves the owner's read
bit, and Read then yields "random text".  On the readable `test.txt`, which holds
"random text", the Write of "more" returns no error and Read yields both.
Under a umask that clears the read bits the Write to `write.txt` returns no
error and Read then fails with EACCES. -/
theorem LocalStorage_Write_then_Read_witness :
    (testLocal.Write "write.txt" "random text" testTree).1 = none ∧
    (∃ file fs3,
      testLocal.Read "write.txt" (testLocal.Write "write.txt" "random text" testTree).2
        = (.ok file, fs3) ∧
      fs3.ReadAll file = .ok "random text") ∧
    (testLocal.Write "test.txt" "more" testTree).1 = none ∧
    (∃ file fs3,
      testLocal.Read "test.txt" (testLocal.Write "test.txt" "more" testTree).2
        = (.ok file, fs3) ∧
      fs3.ReadAll file = .ok ("random text" ++ "more")) ∧
    (testLocal.Write "write.txt" "random text" maskedTree).1 = none ∧
    testLocal.Read "write.txt" (testLocal.Write "write.txt" "random text" maskedTree).2
      = (.error (.pathError "open" (Join [testLocal.Path, "write.txt"]) .EACCES),
          (testLocal.Write "write.txt" "random text" maskedTree).2) := by
  refine ⟨by rfl, ?_, by rfl, ?_, by rfl, by rfl⟩
  · obtain ⟨p, hloc, hfresh, _⟩ :=
      LocalStorage_Write_then_Read testLocal "write.txt" "random text" testTree (by rfl)
    have hp : testTree.locate (Join [testLocal.Path, "write.txt"])
        = .ok ["work", "testdir", "write.txt"] := by rfl
    rw [hp] at hloc
    cases hloc
    exact hfresh (by rfl) (by rfl)
  · obtain ⟨p, hloc, _, hold⟩ :=
      LocalStorage_Write_then_Read testLocal "test.txt" "more" testTree (by rfl)
    have hp : testTree.locate (Join [testLocal.Path, "test.txt"])
        = .ok ["work", "testdir", "test.txt"] := by rfl
    rw [hp] at hloc
    cases hloc
    exact hold "random text" true (by rfl)

/-- C2 (the claim fails): Write of empty content to the missing `new.txt`
returns no error and creates the file, so Exists changes from false to true;
and under the missing directory `nodir` it returns the error of the open. -/
theorem LocalStorage_Write_empty_counterexample :
    (testLocal.Write "new.txt" "" testTree).1 = none ∧
    testLocal.Exists "new.txt" testTree = (false, none) ∧
    testLocal.Exists "new.txt" (testLocal.Write "new.txt" "" testTree).2 = (true, none) ∧
    (testLocal.Write "nodir/new.txt" "" testTree).1
      = some (.pathError "open" "testdir/nodir/new.txt" .ENOENT) := by
  refine ⟨by rfl, by rfl, by rfl, by rfl⟩

/-- C2 (amended) at three keys of the test tree.  On the directory `subdir` the
open fails with EISDIR and Write returns that error with the state as before.
On the missing `fresh.txt` the open succeeds, Write returns no error, and
Exists is (false, nil) before and (true, nil) after.  On the existing
`test.txt` Write returns no error and the entries are as before. -/
theorem LocalStorage_Write_empty_witness :
    testLocal.Write "subdir" "" testTree
      = (some (.pathError "open" "testdir/subdir" .EISDIR), testTree) ∧
    (testLocal.Write "fresh.txt" "" testTree).1 = none ∧
    testLocal.Exists "fresh.txt" testTree = (false, none) ∧
    testLocal.Exists "fresh.txt" (testLocal.Write "fresh.txt" "" testTree).2 = (true, none) ∧
    (testLocal.Write "test.txt" "" testTree).1 = none ∧
    (testLocal.Write "test.txt" "" testTree).2.entries = testTree.entries := by
  have hfresh := (LocalStorage_Write_empty testLocal "fresh.txt" testTree).2
    { name := "testdir/fresh.txt", loc := ["work", "testdir", "fresh.txt"] } (by rfl)
  have hold := (LocalStorage_Write_empty testLocal "test.txt" testTree).2
    { name := "testdir/test.txt", loc := ["work", "testdir", "test.txt"] } (by rfl)
  refine ⟨(LocalStorage_Write_empty testLocal "subdir" testTree).1
      (.pathError "open" "testdir/subdir" .EISDIR) (by rfl), hfresh.1, ?_, ?_, hold.1, ?_⟩
  · obtain ⟨_, p, hloc, _, _, _, hnew⟩ := hfresh
    have hp : testTree.locate (Join [testLocal.Path, "fresh.txt"])
        = .ok ["work", "testdir", "fresh.txt"] := by rfl
    rw [hp] at hloc
    cases hloc
    exact (hnew (by rfl)).2.1
  · obtain ⟨_, p, hloc, _, _, _, hnew⟩ := hfresh
    have hp : testTree.locate (Join [testLocal.Path, "fresh.txt"])
        = .ok ["work", "testdir", "fresh.txt"] := by rfl
    rw [hp] at hloc
    cases hloc
    exact (hnew (by rfl)).2.2
  · obtain ⟨_, p, hloc, _, _, hsame, _⟩ := hold
    have hp : testTree.locate (Join [testLocal.Path, "test.txt"])
        = .ok ["work", "testdir", "test.txt"] := by rfl
    rw [hp] at hloc
    cases hloc
    exact (hsame (.file "random text" true true) (by rfl)).1

/-- C3 at the inputs of `TestWrite` and `TestDelete`.  `write.txt` does not
exist (Exists is (false, nil)); the Write of "random text" to it returns no
error and Exists is (true, nil) right after.  `test.txt` exists (Exists is
(true, nil)); its Delete returns no error and Exists is (false, nil) right
after. -/
theorem LocalStorage_Exists_after_Write_and_Delete_witness :
    testLocal.Exists "write.txt" testTree = (false, none) ∧
    (testLocal.Write "write.txt" "random text" testTree).1 = none ∧
    testLocal.Exists "write.txt" (testLocal.Write "write.txt" "random text" testTree).2
      = (true, none) ∧
    testLocal.Exists "test.txt" testTree = (true, none) ∧
    (testLocal.Delete "test.txt" testTree).1 = none ∧
    testLocal.Exists "test.txt" (testLocal.Delete "test.txt" testTree).2 = (false, none) :=
  ⟨by rfl, by rfl,
    (LocalStorage_Exists_after_Write_and_Delete testLocal "write.txt" testTree).1
      "random text" (by rfl),
    by rfl, by rfl,
    (LocalStorage_Exists_after_Write_and_Delete testLocal "test.txt" testTree).2 (by rfl)⟩

/-- C4 at the listing of the test behind a placeholder of size zero: the two
objects of size > 0 come back, in order, under their full keys. -/
theorem S3Storage_ListDir_entries_witness :
    (testS3.client.ListObjectsV2
        { Bucket := some testS3.bucket,
          Prefix := some (if HasSuffix "folder" "/" then "folder" else "folder" ++ "/"),
          Delimiter := some "/" } freshWorld.state).1
      = (some { Contents := mockListing.map (fun o => { Key := some o.1, Size := some o.2 }) },
          none) ∧
    ∃ entries : List s3DirEntry,
      (testS3.ListDir "folder" freshWorld).1 = .returns (some entries, none) ∧
      entries = (mockListing.filter (fun o => decide (o.2 > 0))).map
        (fun o => newS3DirEntry o.1 o.2) ∧
      entries.map s3DirEntry.Name
        = (mockListing.filter (fun o => decide (o.2 > 0))).map (fun o => o.1) ∧
      entries.length = (mockListing.filter (fun o => decide (o.2 > 0))).length ∧
      (∀ e ∈ entries, e.size > 0) :=
  ⟨by rfl, S3Storage_ListDir_entries testS3 "folder" freshWorld mockListing (by rfl)⟩

/-- C5 at a bucket name: the factory refuses the tag "s3", and `newS3Storage`
in surroundings that load builds the adapter. -/
theorem CreateStorage_s3_unsupported_witness :
    testAmbient.dotenvLoad = none ∧
    (testAmbient.LoadDefaultConfig (testAmbient.Getenv "AWS_S3_REGION")).2 = none ∧
    (CreateStorage "s3" "testbucket" : Option (StorageInterface Unit) × Option GoError)
      = (none, some (.errorf "Wrong storage type passed")) ∧
    ∃ s : S3Storage Unit,
      newS3Storage testAmbient "testbucket" = .returns (some (.s3Storage s), none) ∧
        s.Type_ = "s3" ∧ s.Path = "testbucket" ∧ s.bucket = "testbucket" :=
  ⟨rfl, rfl, (@CreateStorage_s3_unsupported Unit Unit "testbucket").1,
    (@CreateStorage_s3_unsupported Unit Unit "testbucket").2 testAmbient rfl rfl⟩

/-- C6 at the tag "ftp": it is neither "local" nor "s3" and the factory
returns a nil handle and an error. -/
theorem CreateStorage_local_and_unknown_witness :
    "ftp" ≠ "local" ∧ "ftp" ≠ "s3" ∧
    ∃ err, (CreateStorage "ftp" "testdir" : Option (StorageInterface Unit) × Option GoError)
      = (none, some err) :=
  ⟨by decide, by decide,
    (@CreateStorage_local_and_unknown Unit).1 "ftp" "testdir" (by decide) (by decide)⟩

/-- C8 at the input of `TestS3Storage_Write`: one PutObject request with the
bucket, the key and the content. -/
theorem S3Storage_Write_put_witness :
    "hello world" ≠ "" ∧
    (testS3.Write "test.txt" "hello world" freshWorld).2.calls
      = freshWorld.calls ++
        [.PutObject
          { Bucket := some testS3.bucket, Key := some "test.txt", Body := some "hello world" }] ∧
    (testS3.Write "test.txt" "hello world" freshWorld).1
      = (testS3.client.PutObject
          { Bucket := some testS3.bucket, Key := some "test.txt", Body := some "hello world" }
          freshWorld.state).1.2 ∧
    (testS3.Write "test.txt" "hello world" freshWorld).2.state
      = (testS3.client.PutObject
          { Bucket := some testS3.bucket, Key := some "test.txt", Body := some "hello world" }
          freshWorld.state).2 :=
  ⟨by decide,
    (S3Storage_Write_put testS3 "test.txt" freshWorld).2 "hello world" (by decide)⟩

/-- C9 at the key "folder": it does not end with "/", and ListDir on it and on
"folder/" are the same call. -/
theorem S3Storage_ListDir_request_witness :
    HasSuffix "folder" "/" = false ∧
    testS3.ListDir "folder" freshWorld = testS3.ListDir ("folder" ++ "/") freshWorld :=
  ⟨by rfl, (S3Storage_ListDir_request testS3 "folder" freshWorld).2.2 (by rfl)⟩

/-- C10 at the tree of the tests: `test.txt` exists, `random.txt` does not, and
`test.txt/x` fails with ENOTDIR, which is not a not-exist error. -/
theorem LocalStorage_Exists_three_way_witness :
    testLocal.Exists "test.txt" testTree = (true, none) ∧
    testLocal.Exists "random.txt" testTree = (false, none) ∧
    testLocal.Exists "test.txt/x" testTree
      = (false, some (.pathError "stat" "testdir/test.txt/x" .ENOTDIR)) :=
  ⟨(LocalStorage_Exists_three_way testLocal "test.txt" testTree).1
      (.file "random text" true true) (by rfl),
    (LocalStorage_Exists_three_way testLocal "random.txt" testTree).2.1
      (.pathError "stat" "testdir/random.txt" .ENOENT) (by rfl) (by rfl),
    (LocalStorage_Exists_three_way testLocal "test.txt/x" testTree).2.2.1
      (.pathError "stat" "testdir/test.txt/x" .ENOTDIR) (by rfl) (by rfl)⟩

end GoStorage
